import Mathlib

/-!
Shallow embedding of the task-management core (domain entity `Task`,
in-memory and SQLite storage backends, and the orchestration service
`TaskService`), translated from:
  app/domain/task.py
  app/adapters/persistence/memory_task_repository.py
  app/adapters/persistence/sqlite_task_repository.py
  app/application/services/task_service.py

Python strings are modelled as lists of Unicode code points (`PyStr`),
timezone-aware UTC datetimes as a seven-field record (`DateTime`), and
in-place mutation as explicit state passing.  The in-memory backend's
dictionary is a list of tasks in insertion order with unique ids; the
SQLite table is a list of rows (five text columns) in insertion order.
-/

deriving instance DecidableEq for Except

namespace TaskMgmt

/-- Python strings as lists of Unicode code points. -/
abbrev PyStr := List Nat

/-- Code-point list of a Lean string literal (used for the literals
appearing in the Python source). -/
def pystr (s : String) : PyStr := s.toList.map Char.toNat

/-- Characters removed by Python `str.strip()` with no argument, restricted
to the ASCII whitespace actually reachable in this code base:
space, tab, newline, carriage return, vertical tab, form feed. -/
def isPySpace (c : Nat) : Bool :=
  c = 32 || c = 9 || c = 10 || c = 13 || c = 11 || c = 12

/-- Python `str.strip()`: drop leading and trailing whitespace. -/
def pyStrip (s : PyStr) : PyStr :=
  ((s.dropWhile isPySpace).reverse.dropWhile isPySpace).reverse

/-- Lexicographic (memcmp-style) order on code-point lists; a proper
prefix compares below.  This is both SQLite's BINARY text collation and,
applied to the component list of a datetime, Python's datetime order. -/
def natListLe : List Nat → List Nat → Bool
  | [], _ => true
  | _ :: _, [] => false
  | a :: as, b :: bs =>
      if a < b then true
      else if a = b then natListLe as bs
      else false

/-- Timezone-aware UTC datetime (`datetime.datetime` with
`tzinfo=timezone.utc`), as produced by `datetime.now(timezone.utc)`. -/
structure DateTime where
  year : Nat
  month : Nat
  day : Nat
  hour : Nat
  minute : Nat
  second : Nat
  microsecond : Nat
deriving DecidableEq

/-- Component list of a datetime, most significant first. -/
def DateTime.toList (d : DateTime) : List Nat :=
  [d.year, d.month, d.day, d.hour, d.minute, d.second, d.microsecond]

/-- Python datetime comparison (lexicographic on the components; both
operands share the UTC offset here). -/
def DateTime.le (a b : DateTime) : Bool := natListLe a.toList b.toList

/-- Field ranges enforced by the `datetime` constructor (day upper bound
relaxed to 31; the month-specific bound is irrelevant to the claims). -/
def DateTime.valid (d : DateTime) : Prop :=
  1 ≤ d.year ∧ d.year ≤ 9999 ∧ 1 ≤ d.month ∧ d.month ≤ 12 ∧
  1 ≤ d.day ∧ d.day ≤ 31 ∧ d.hour ≤ 23 ∧ d.minute ≤ 59 ∧
  d.second ≤ 59 ∧ d.microsecond ≤ 999999

instance (d : DateTime) : Decidable d.valid := by
  unfold DateTime.valid; infer_instance

/-- Code point of a decimal digit. -/
def digitChar (n : Nat) : Nat := 48 + n

/-- Two-digit zero-padded decimal rendering. -/
def pad2 (n : Nat) : PyStr := [digitChar (n / 10 % 10), digitChar (n % 10)]

/-- Four-digit zero-padded decimal rendering. -/
def pad4 (n : Nat) : PyStr :=
  [digitChar (n / 1000 % 10), digitChar (n / 100 % 10),
   digitChar (n / 10 % 10), digitChar (n % 10)]

/-- Six-digit zero-padded decimal rendering. -/
def pad6 (n : Nat) : PyStr :=
  [digitChar (n / 100000 % 10), digitChar (n / 10000 % 10),
   digitChar (n / 1000 % 10), digitChar (n / 100 % 10),
   digitChar (n / 10 % 10), digitChar (n % 10)]

/-- Python `datetime.isoformat()` for a UTC-aware datetime:
`YYYY-MM-DDTHH:MM:SS[.ffffff]+00:00`, the fractional part omitted
exactly when the microsecond field is zero. -/
def DateTime.isoformat (d : DateTime) : PyStr :=
  pad4 d.year ++ 45 :: pad2 d.month ++ 45 :: pad2 d.day ++
  84 :: pad2 d.hour ++ 58 :: pad2 d.minute ++ 58 :: pad2 d.second ++
  (if d.microsecond = 0 then [] else 46 :: pad6 d.microsecond) ++
  pystr "+00:00"

/-- Read one decimal digit from the front of a string. -/
def readDigit : PyStr → Option (Nat × PyStr)
  | c :: rest => if 48 ≤ c ∧ c ≤ 57 then some (c - 48, rest) else none
  | [] => none

/-- Read a two-digit decimal number. -/
def read2 (cs : PyStr) : Option (Nat × PyStr) := do
  let (a, cs) ← readDigit cs
  let (b, cs) ← readDigit cs
  pure (10 * a + b, cs)

/-- Read a four-digit decimal number. -/
def read4 (cs : PyStr) : Option (Nat × PyStr) := do
  let (a, cs) ← read2 cs
  let (b, cs) ← read2 cs
  pure (100 * a + b, cs)

/-- Read a six-digit decimal number. -/
def read6 (cs : PyStr) : Option (Nat × PyStr) := do
  let (a, cs) ← read4 cs
  let (b, cs) ← read2 cs
  pure (100 * a + b, cs)

/-- Consume one expected code point. -/
def expectChar (ch : Nat) : PyStr → Option PyStr
  | c :: rest => if c = ch then some rest else none
  | [] => none

/-- Python `datetime.fromisoformat`, modelled on the textual format this
code base stores (UTC offset `+00:00`, optional six-digit fraction),
including the constructor's field-range validation. -/
def DateTime.fromisoformat (cs : PyStr) : Option DateTime := do
  let (y, cs) ← read4 cs
  let cs ← expectChar 45 cs
  let (mo, cs) ← read2 cs
  let cs ← expectChar 45 cs
  let (da, cs) ← read2 cs
  let cs ← expectChar 84 cs
  let (h, cs) ← read2 cs
  let cs ← expectChar 58 cs
  let (mi, cs) ← read2 cs
  let cs ← expectChar 58 cs
  let (s, cs) ← read2 cs
  let (us, cs) ←
    match cs with
    | [] => some ((0 : Nat), ([] : PyStr))
    | c :: rest => if c = 46 then read6 rest else some (0, c :: rest)
  if cs = pystr "+00:00" then
    let d : DateTime := ⟨y, mo, da, h, mi, s, us⟩
    if d.valid then pure d else none
  else none

/-- Enumeration `TaskStatus` with its two members. -/
inductive TaskStatus where
  | pending
  | done
deriving DecidableEq

/-- The `.value` string of a status member. -/
def TaskStatus.value : TaskStatus → PyStr
  | .pending => pystr "pending"
  | .done => pystr "done"

/-- Python `TaskStatus(s)`: the member whose value is `s`, if any
(`ValueError` otherwise, modelled as `none`).  Also decides the source's
membership tests `s in [m.value for m in TaskStatus]`. -/
def TaskStatus.ofValue (s : PyStr) : Option TaskStatus :=
  if s = pystr "pending" then some .pending
  else if s = pystr "done" then some .done
  else none

/-- Python exceptions raised by the modelled code. -/
inductive PyErr where
  | valueError (msg : PyStr)
  | integrityError
  | conversionError
deriving DecidableEq

/-- The dataclass `Task`. -/
structure Task where
  id : PyStr
  title : PyStr
  status : TaskStatus
  created_at : DateTime
  updated_at : DateTime
deriving DecidableEq

/-- Lowercase hex digit code point. -/
def hexChar (n : Nat) : Nat := if n < 10 then 48 + n else 87 + n

/-- Fixed-width big-endian hex rendering. -/
def hexPad : Nat → Nat → PyStr
  | 0, _ => []
  | w + 1, n => hexPad w (n / 16) ++ [hexChar (n % 16)]

/-- Python `str(uuid.uuid4())` on the 128-bit value `u`: five hyphenated
hex groups of widths 8-4-4-4-12. -/
def uuid4String (u : Nat) : PyStr :=
  hexPad 8 (u / 16 ^ 24) ++ 45 :: hexPad 4 (u / 16 ^ 20 % 16 ^ 4) ++
  45 :: hexPad 4 (u / 16 ^ 16 % 16 ^ 4) ++
  45 :: hexPad 4 (u / 16 ^ 12 % 16 ^ 4) ++ 45 :: hexPad 12 (u % 16 ^ 12)

/-- Factory `Task.create(title, status)`.  The nondeterministic inputs
(the generated UUID value and the current UTC time) are explicit
parameters `u` and `now`. -/
def Task.create (title status : PyStr) (u : Nat) (now : DateTime) :
    Except PyErr Task :=
  if title = [] ∨ pyStrip title = [] then
    .error (.valueError (pystr "Title cannot be empty"))
  else
    match TaskStatus.ofValue status with
    | none => .error (.valueError
        (pystr "Invalid status, must be one of: pending, done"))
    | some st =>
        .ok { id := uuid4String u, title := pyStrip title, status := st,
              created_at := now, updated_at := now }

/-- Mutator `Task.update_status(new_status)`; `now` is the time read by
`datetime.now(timezone.utc)` inside the call. -/
def Task.update_status (t : Task) (new_status : PyStr) (now : DateTime) :
    Except PyErr Task :=
  match TaskStatus.ofValue new_status with
  | none => .error (.valueError
      (pystr "Invalid status. Must be one of: pending, done"))
  | some st => .ok { t with status := st, updated_at := now }

/-- Mutator `Task.update_title(new_title)`; `now` is the time read inside
the call. -/
def Task.update_title (t : Task) (new_title : PyStr) (now : DateTime) :
    Except PyErr Task :=
  if new_title = [] ∨ pyStrip new_title = [] then
    .error (.valueError (pystr "Title cannot be empty"))
  else .ok { t with title := pyStrip new_title, updated_at := now }

/-- Flat five-field textual mapping: the result of `Task.to_dict()`, and
equally a row of the SQLite `tasks` table (the columns `save` inserts are
exactly these five strings). -/
structure TaskDict where
  id : PyStr
  title : PyStr
  status : PyStr
  created_at : PyStr
  updated_at : PyStr
deriving DecidableEq

/-- Serialization `Task.to_dict()`. -/
def Task.to_dict (t : Task) : TaskDict :=
  { id := t.id, title := t.title, status := t.status.value,
    created_at := t.created_at.isoformat,
    updated_at := t.updated_at.isoformat }

/-! ## In-memory backend

The dictionary `_tasks : Dict[str, Task]` is modelled as the list of its
values in insertion order; every entry is keyed by its own `id` field,
and keys are unique (a `Dict` cannot hold a key twice).  Assignment
`_tasks[t.id] = t` replaces the existing entry in place or appends. -/

/-- Dictionary assignment `_tasks[t.id] = t`. -/
def dictSet (st : List Task) (t : Task) : List Task :=
  if st.any (fun x => x.id == t.id) then
    st.map (fun x => if x.id == t.id then t else x)
  else st ++ [t]

/-- Uniqueness of the keys of the modelled dictionary. -/
def IdsNodup (st : List Task) : Prop := (st.map Task.id).Nodup

namespace MemoryTaskRepository

/-- Memory backend `save`: unconditional upsert, returns the task. -/
def save (st : List Task) (t : Task) : Task × List Task :=
  (t, dictSet st t)

/-- Memory backend `find_all`: `sorted(values, key=created_at,
reverse=True)` — Python's stable sort under the reversed key comparison. -/
def find_all (st : List Task) : List Task :=
  st.mergeSort (fun a b => DateTime.le b.created_at a.created_at)

/-- Memory backend `find_by_id`: dictionary lookup, `None` when absent. -/
def find_by_id (st : List Task) (task_id : PyStr) : Option Task :=
  st.find? (fun x => x.id == task_id)

/-- Memory backend `update`: replace when the id is a key, else `None`
with no action. -/
def update (st : List Task) (t : Task) : Option Task × List Task :=
  if st.any (fun x => x.id == t.id) then (some t, dictSet st t)
  else (none, st)

/-- Memory backend `delete`: remove the entry when present, report
whether removal occurred. -/
def delete (st : List Task) (task_id : PyStr) : Bool × List Task :=
  if st.any (fun x => x.id == task_id) then
    (true, st.filter (fun x => !(x.id == task_id)))
  else (false, st)

end MemoryTaskRepository

/-! ## SQLite backend

The `tasks` table is the list of its rows in insertion order, each row
the five text columns; `id` is the primary key, so row ids are unique. -/

namespace SQLiteTaskRepository

/-- Conversion `_row_to_task`: re-parse status into the enumeration and
the two timestamps; a malformed column raises (modelled as `none`). -/
def row_to_task (r : TaskDict) : Option Task := do
  let st ← TaskStatus.ofValue r.status
  let c ← DateTime.fromisoformat r.created_at
  let u ← DateTime.fromisoformat r.updated_at
  pure { id := r.id, title := r.title, status := st,
         created_at := c, updated_at := u }

/-- SQLite backend `save`: plain INSERT of the five columns; a duplicate
primary key raises `sqlite3.IntegrityError` and the table is unchanged. -/
def save (st : List TaskDict) (t : Task) :
    Except PyErr Task × List TaskDict :=
  if st.any (fun r => r.id == t.id) then (.error .integrityError, st)
  else (.ok t, st ++ [t.to_dict])

/-- The comprehension `[self._row_to_task(row) for row in rows]`: convert
rows in order, the first malformed row raising. -/
def rowsToTasks : List TaskDict → Option (List Task)
  | [] => some []
  | r :: rs => do
      let t ← row_to_task r
      let ts ← rowsToTasks rs
      pure (t :: ts)

/-- SQLite backend `find_all`: `SELECT * ... ORDER BY created_at DESC`
(BINARY collation on the text column, descending, stable) followed by
row conversion; a malformed row raises. -/
def find_all (st : List TaskDict) : Except PyErr (List Task) :=
  match rowsToTasks
      (st.mergeSort (fun a b => natListLe b.created_at a.created_at)) with
  | some ts => .ok ts
  | none => .error .conversionError

/-- SQLite backend `find_by_id`: at most one row matches the primary
key; absent is `None`, a malformed row raises. -/
def find_by_id (st : List TaskDict) (task_id : PyStr) :
    Except PyErr (Option Task) :=
  match st.find? (fun r => r.id == task_id) with
  | none => .ok none
  | some r =>
      match row_to_task r with
      | some t => .ok (some t)
      | none => .error .conversionError

/-- SQLite backend `update`: `UPDATE tasks SET title = ?, status = ?,
updated_at = ? WHERE id = ?`; when no row matches (`rowcount == 0`)
returns `None`, else returns the argument task. -/
def update (st : List TaskDict) (t : Task) :
    Option Task × List TaskDict :=
  if st.any (fun r => r.id == t.id) then
    (some t,
     st.map (fun r =>
       if r.id == t.id then
         { r with title := t.title, status := t.status.value,
                  updated_at := t.updated_at.isoformat }
       else r))
  else (none, st)

/-- SQLite backend `delete`: DELETE by id, reporting `rowcount > 0`. -/
def delete (st : List TaskDict) (task_id : PyStr) :
    Bool × List TaskDict :=
  if st.any (fun r => r.id == task_id) then
    (true, st.filter (fun r => !(r.id == task_id)))
  else (false, st)

end SQLiteTaskRepository

/-! ## Orchestration service

`TaskService` holds only the injected repository, so each use case is a
function from backend state to (outcome, new backend state).  Both
backend instantiations are given.  An uncaught exception leaves the
backend as it was at the moment of the raise.

In `update_task` on the in-memory backend, `find_by_id` returns the very
object stored in the dictionary (Python reference semantics), so a
successful `update_title`/`update_status` mutates the stored entry in
place, before and independently of the final `update` call; the state
therefore already holds the partially mutated task when a later setter
raises.  The SQLite backend's `find_by_id` builds a fresh `Task` from
the row, so its mutations stay local until `update` runs. -/

namespace TaskService

/-- Service `create_task` on the in-memory backend. -/
def create_task_mem (st : List Task) (title status : PyStr) (u : Nat)
    (now : DateTime) : Except PyErr Task × List Task :=
  match Task.create title status u now with
  | .error e => (.error e, st)
  | .ok t =>
      let (t2, st2) := MemoryTaskRepository.save st t
      (.ok t2, st2)

/-- Service `create_task` on the SQLite backend. -/
def create_task_sql (st : List TaskDict) (title status : PyStr) (u : Nat)
    (now : DateTime) : Except PyErr Task × List TaskDict :=
  match Task.create title status u now with
  | .error e => (.error e, st)
  | .ok t => SQLiteTaskRepository.save st t

/-- The `if title is not None: task.update_title(title)` step. -/
def titleStep (t : Task) (title : Option PyStr) (now : DateTime) :
    Except PyErr Task :=
  match title with
  | none => .ok t
  | some ti => t.update_title ti now

/-- The `if status is not None: task.update_status(status)` step. -/
def statusStep (t : Task) (status : Option PyStr) (now : DateTime) :
    Except PyErr Task :=
  match status with
  | none => .ok t
  | some s => t.update_status s now

/-- Service `update_task` on the in-memory backend.  `nowT` and `nowS`
are the times read inside `update_title` and `update_status`.  After
each successful setter the dictionary entry already equals the mutated
task (aliasing), written here as an explicit `dictSet`. -/
def update_task_mem (st : List Task) (task_id : PyStr)
    (title status : Option PyStr) (nowT nowS : DateTime) :
    Except PyErr (Option Task) × List Task :=
  match MemoryTaskRepository.find_by_id st task_id with
  | none => (.ok none, st)
  | some task =>
      match titleStep task title nowT with
      | .error e => (.error e, st)
      | .ok task1 =>
          let st1 := dictSet st task1
          match statusStep task1 status nowS with
          | .error e => (.error e, st1)
          | .ok task2 =>
              let st2 := dictSet st1 task2
              let (res, st3) := MemoryTaskRepository.update st2 task2
              (.ok res, st3)

/-- Service `update_task` on the SQLite backend (no aliasing: the
fetched task is a fresh object). -/
def update_task_sql (st : List TaskDict) (task_id : PyStr)
    (title status : Option PyStr) (nowT nowS : DateTime) :
    Except PyErr (Option Task) × List TaskDict :=
  match SQLiteTaskRepository.find_by_id st task_id with
  | .error e => (.error e, st)
  | .ok none => (.ok none, st)
  | .ok (some task) =>
      match titleStep task title nowT with
      | .error e => (.error e, st)
      | .ok task1 =>
          match statusStep task1 status nowS with
          | .error e => (.error e, st)
          | .ok task2 =>
              let (res, st2) := SQLiteTaskRepository.update st task2
              (.ok res, st2)

end TaskService

/-! ## Order lemmas for `natListLe` -/

theorem natListLe_refl (l : List Nat) : natListLe l l = true := by
  induction l with
  | nil => rfl
  | cons a as ih => simp [natListLe, ih]

theorem natListLe_cons_cons (a b : Nat) (as bs : List Nat) :
    natListLe (a :: as) (b :: bs) =
      if a < b then true else if a = b then natListLe as bs else false :=
  rfl

theorem natListLe_total (x y : List Nat) :
    natListLe x y = true ∨ natListLe y x = true := by
  induction x generalizing y with
  | nil => left; rfl
  | cons a as ih =>
      cases y with
      | nil => right; rfl
      | cons b bs =>
          rw [natListLe_cons_cons, natListLe_cons_cons]
          rcases Nat.lt_trichotomy a b with h | h | h
          · left; simp [h]
          · subst h
            rcases ih bs with h2 | h2
            · left; simp [h2]
            · right; simp [h2]
          · right
            have h2 : ¬ a < b := by omega
            have h3 : b ≠ a := by omega
            simp [h, h2, h3]

theorem natListLe_trans {x y z : List Nat} (h1 : natListLe x y = true)
    (h2 : natListLe y z = true) : natListLe x z = true := by
  induction x generalizing y z with
  | nil => rfl
  | cons a as ih =>
      cases y with
      | nil => simp [natListLe] at h1
      | cons b bs =>
          cases z with
          | nil => simp [natListLe] at h2
          | cons c cs =>
              rw [natListLe_cons_cons] at h1 h2 ⊢
              split_ifs at h1 h2 ⊢ <;>
                first
                  | rfl
                  | omega
                  | (exact ih h1 h2)

theorem natListLe_antisymm {x y : List Nat} (h1 : natListLe x y = true)
    (h2 : natListLe y x = true) : x = y := by
  induction x generalizing y with
  | nil =>
      cases y with
      | nil => rfl
      | cons b bs => simp [natListLe] at h2
  | cons a as ih =>
      cases y with
      | nil => simp [natListLe] at h1
      | cons b bs =>
          rw [natListLe_cons_cons] at h1 h2
          have hab : a = b := by
            split_ifs at h1 h2 <;> omega
          subst hab
          have h1a : natListLe as bs = true := by
            simpa [lt_irrefl] using h1
          have h2a : natListLe bs as = true := by
            simpa [lt_irrefl] using h2
          rw [ih h1a h2a]

theorem natListLe_false_of_lt {x y : List Nat}
    (h1 : natListLe x y = true) (h2 : x ≠ y) : natListLe y x = false := by
  cases h : natListLe y x
  · rfl
  · exact absurd (natListLe_antisymm h1 h) h2

/-! ## Whitespace and `pyStrip` lemmas -/

theorem dropWhile_head_not {p : Nat → Bool} {l t : List Nat} {c : Nat}
    (hd : l.dropWhile p = c :: t) : p c = false := by
  induction l with
  | nil => simp [List.dropWhile] at hd
  | cons a as ih =>
      cases ha : p a with
      | true =>
          simp only [List.dropWhile, ha] at hd
          exact ih hd
      | false =>
          simp only [List.dropWhile, ha, List.cons.injEq] at hd
          exact hd.1 ▸ ha

theorem pyStrip_has_nonspace {s : PyStr} (h : pyStrip s ≠ []) :
    ∃ c ∈ pyStrip s, isPySpace c = false := by
  unfold pyStrip at h ⊢
  cases hx :
      List.dropWhile isPySpace (List.dropWhile isPySpace s).reverse with
  | nil => rw [hx] at h; simp at h
  | cons c t =>
      exact ⟨c, by simp, dropWhile_head_not hx⟩

/-! ## Decimal rendering and parsing lemmas -/

theorem pad4_eq (n : Nat) : pad4 n = pad2 (n / 100) ++ pad2 (n % 100) := by
  simp only [pad4, pad2, digitChar, List.cons_append, List.nil_append,
    List.cons.injEq, and_true, true_and]
  omega

theorem pad6_eq (n : Nat) : pad6 n = pad4 (n / 100) ++ pad2 (n % 100) := by
  simp only [pad6, pad4, pad2, digitChar, List.cons_append, List.nil_append,
    List.cons.injEq, and_true, true_and]
  omega

theorem readDigit_digitChar {k : Nat} (hk : k < 10) (rest : PyStr) :
    readDigit (digitChar k :: rest) = some (k, rest) := by
  simp only [readDigit, digitChar]
  rw [if_pos (by omega)]
  simp

theorem read2_pad2 {n : Nat} (hn : n < 100) (rest : PyStr) :
    read2 (pad2 n ++ rest) = some (n, rest) := by
  have h1 : n / 10 % 10 < 10 := Nat.mod_lt _ (by omega)
  have h2 : n % 10 < 10 := Nat.mod_lt _ (by omega)
  have hv : 10 * (n / 10 % 10) + n % 10 = n := by omega
  simp [read2, pad2, List.cons_append, readDigit_digitChar h1,
    readDigit_digitChar h2, hv]

theorem read4_pad4 {n : Nat} (hn : n < 10000) (rest : PyStr) :
    read4 (pad4 n ++ rest) = some (n, rest) := by
  have hv : 100 * (n / 100) + n % 100 = n := by omega
  rw [pad4_eq, List.append_assoc]
  simp [read4, read2_pad2 (show n / 100 < 100 by omega),
    read2_pad2 (show n % 100 < 100 by omega), hv]

theorem read6_pad6 {n : Nat} (hn : n < 1000000) (rest : PyStr) :
    read6 (pad6 n ++ rest) = some (n, rest) := by
  have hv : 100 * (n / 100) + n % 100 = n := by omega
  rw [pad6_eq, List.append_assoc]
  simp [read6, read4_pad4 (show n / 100 < 10000 by omega),
    read2_pad2 (show n % 100 < 100 by omega), hv]

theorem expectChar_cons (c : Nat) (rest : PyStr) :
    expectChar c (c :: rest) = some rest := by
  simp [expectChar]

theorem pystr_offset : pystr "+00:00" = [43, 48, 48, 58, 48, 48] := rfl

set_option maxHeartbeats 2000000 in
/-- Parsing inverts rendering on every datetime the constructor admits. -/
theorem fromisoformat_isoformat {d : DateTime} (hd : d.valid) :
    DateTime.fromisoformat d.isoformat = some d := by
  obtain ⟨y, mo, da, hh, mi, ss, us⟩ := d
  simp only [DateTime.valid] at hd
  obtain ⟨h1, h2, h3, h4, h5, h6, h7, h8, h9, h10⟩ := hd
  have hvalid : DateTime.valid ⟨y, mo, da, hh, mi, ss, us⟩ := by
    simp only [DateTime.valid]
    exact ⟨h1, h2, h3, h4, h5, h6, h7, h8, h9, h10⟩
  unfold DateTime.isoformat DateTime.fromisoformat
  by_cases hus : us = 0
  · subst hus
    rw [if_pos rfl]
    simp only [pystr_offset, List.append_nil, List.nil_append,
      List.cons_append, List.append_assoc,
      read4_pad4 (show y < 10000 by omega),
      read2_pad2 (show mo < 100 by omega),
      read2_pad2 (show da < 100 by omega),
      read2_pad2 (show hh < 100 by omega),
      read2_pad2 (show mi < 100 by omega),
      read2_pad2 (show ss < 100 by omega),
      expectChar_cons, Option.bind_eq_bind, Option.some_bind]
    simp [hvalid]
  · rw [if_neg hus]
    simp only [pystr_offset, List.nil_append, List.cons_append,
      List.append_assoc,
      read4_pad4 (show y < 10000 by omega),
      read2_pad2 (show mo < 100 by omega),
      read2_pad2 (show da < 100 by omega),
      read2_pad2 (show hh < 100 by omega),
      read2_pad2 (show mi < 100 by omega),
      read2_pad2 (show ss < 100 by omega),
      read6_pad6 (show us < 1000000 by omega),
      expectChar_cons, Option.bind_eq_bind, Option.some_bind]
    simp [hvalid]

/-! ## Text order versus chronological order -/

theorem natListLe_nil (y : List Nat) : natListLe [] y = true := rfl

theorem natListLe_cons_same (c : Nat) (x y : List Nat) :
    natListLe (c :: x) (c :: y) = natListLe x y := by
  rw [natListLe_cons_cons]
  simp

theorem natListLe_pad2 {m n : Nat} (hm : m < 100) (hn : n < 100)
    (x y : List Nat) :
    natListLe (pad2 m ++ x) (pad2 n ++ y) =
      if m < n then true else if m = n then natListLe x y else false := by
  simp only [pad2, digitChar, List.cons_append, natListLe_cons_cons]
  split_ifs <;> first | rfl | omega

theorem natListLe_pad4 {m n : Nat} (hm : m < 10000) (hn : n < 10000)
    (x y : List Nat) :
    natListLe (pad4 m ++ x) (pad4 n ++ y) =
      if m < n then true else if m = n then natListLe x y else false := by
  rw [pad4_eq m, pad4_eq n, List.append_assoc, List.append_assoc,
    natListLe_pad2 (show m / 100 < 100 by omega)
      (show n / 100 < 100 by omega),
    natListLe_pad2 (show m % 100 < 100 by omega)
      (show n % 100 < 100 by omega)]
  split_ifs <;> first | rfl | omega

theorem natListLe_pad6 {m n : Nat} (hm : m < 1000000) (hn : n < 1000000)
    (x y : List Nat) :
    natListLe (pad6 m ++ x) (pad6 n ++ y) =
      if m < n then true else if m = n then natListLe x y else false := by
  rw [pad6_eq m, pad6_eq n, List.append_assoc, List.append_assoc,
    natListLe_pad4 (show m / 100 < 10000 by omega)
      (show n / 100 < 10000 by omega),
    natListLe_pad2 (show m % 100 < 100 by omega)
      (show n % 100 < 100 by omega)]
  split_ifs <;> first | rfl | omega

theorem natListLe_microtail {ma mb : Nat} (hma : ma ≤ 999999)
    (hmb : mb ≤ 999999) :
    natListLe ((if ma = 0 then [] else 46 :: pad6 ma) ++ pystr "+00:00")
      ((if mb = 0 then [] else 46 :: pad6 mb) ++ pystr "+00:00") =
      (if ma < mb then true else if ma = mb then true else false) := by
  rw [pystr_offset]
  by_cases h1 : ma = 0 <;> by_cases h2 : mb = 0
  · subst h1; subst h2
    simp [natListLe_refl]
  · subst h1
    rw [if_pos rfl, if_neg h2, List.nil_append, List.cons_append,
      natListLe_cons_cons]
    have hlt : (43 : Nat) < 46 := by omega
    simp only [if_pos hlt]
    split_ifs <;> first | rfl | omega
  · subst h2
    rw [if_neg h1, if_pos rfl, List.nil_append, List.cons_append,
      natListLe_cons_cons]
    split_ifs <;> first | rfl | omega
  · rw [if_neg h1, if_neg h2, List.cons_append, List.cons_append,
      natListLe_cons_same,
      natListLe_pad6 (show ma < 1000000 by omega)
        (show mb < 1000000 by omega)]
    split_ifs <;> rfl

/-- On valid datetimes, BINARY-collation text order of the rendered
ISO strings agrees with chronological (component-wise) order. -/
theorem isoformat_le {a b : DateTime} (ha : a.valid) (hb : b.valid) :
    natListLe a.isoformat b.isoformat = DateTime.le a b := by
  obtain ⟨ya, moa, daa, hha, mia, ssa, usa⟩ := a
  obtain ⟨yb, mob, dab, hhb, mib, ssb, usb⟩ := b
  simp only [DateTime.valid] at ha hb
  unfold DateTime.isoformat DateTime.le DateTime.toList
  simp only [List.cons_append, List.append_assoc]
  rw [natListLe_pad4 (show ya < 10000 by omega) (show yb < 10000 by omega),
    natListLe_cons_same,
    natListLe_pad2 (show moa < 100 by omega) (show mob < 100 by omega),
    natListLe_cons_same,
    natListLe_pad2 (show daa < 100 by omega) (show dab < 100 by omega),
    natListLe_cons_same,
    natListLe_pad2 (show hha < 100 by omega) (show hhb < 100 by omega),
    natListLe_cons_same,
    natListLe_pad2 (show mia < 100 by omega) (show mib < 100 by omega),
    natListLe_cons_same,
    natListLe_pad2 (show ssa < 100 by omega) (show ssb < 100 by omega),
    natListLe_microtail (show usa ≤ 999999 by omega)
      (show usb ≤ 999999 by omega)]
  simp only [natListLe_cons_cons, natListLe_nil]

/-! ## Status and row-conversion lemmas -/

theorem ofValue_value (st : TaskStatus) :
    TaskStatus.ofValue st.value = some st := by
  cases st <;> rfl

theorem value_ofValue {s : PyStr} {st : TaskStatus}
    (h : TaskStatus.ofValue s = some st) : st.value = s := by
  unfold TaskStatus.ofValue at h
  split_ifs at h with h1 h2
  · cases h; exact h1.symm
  · cases h; exact h2.symm

/-- Rows that the repository itself writes: a status string that is the
value of an enumeration member, and both timestamp columns rendered by
`isoformat` from constructor-valid datetimes. -/
def WfRow (r : TaskDict) : Prop :=
  (∃ st : TaskStatus, r.status = st.value) ∧
  (∃ d : DateTime, d.valid ∧ r.created_at = d.isoformat) ∧
  (∃ d : DateTime, d.valid ∧ r.updated_at = d.isoformat)

theorem to_dict_wf (t : Task) (hc : t.created_at.valid)
    (hu : t.updated_at.valid) : WfRow (Task.to_dict t) :=
  ⟨⟨t.status, rfl⟩, ⟨t.created_at, hc, rfl⟩, ⟨t.updated_at, hu, rfl⟩⟩

theorem row_to_task_wf {r : TaskDict} (h : WfRow r) :
    ∃ t : Task, SQLiteTaskRepository.row_to_task r = some t ∧
      Task.to_dict t = r ∧ t.created_at.valid ∧ t.updated_at.valid := by
  obtain ⟨⟨st, hst⟩, ⟨dc, hdc, hc⟩, ⟨du, hdu, hu⟩⟩ := h
  refine ⟨⟨r.id, r.title, st, dc, du⟩, ?_, ?_, hdc, hdu⟩
  · unfold SQLiteTaskRepository.row_to_task
    rw [hst, hc, hu]
    simp [ofValue_value, fromisoformat_isoformat hdc,
      fromisoformat_isoformat hdu]
  · show Task.to_dict ⟨r.id, r.title, st, dc, du⟩ = r
    unfold Task.to_dict
    simp only
    rw [← hst, ← hc, ← hu]

theorem row_to_task_eq_of_wf {r : TaskDict} {t : Task} (hw : WfRow r)
    (h : SQLiteTaskRepository.row_to_task r = some t) :
    Task.to_dict t = r ∧ t.created_at.valid ∧ t.updated_at.valid := by
  obtain ⟨t2, h2, hd2, hc2, hu2⟩ := row_to_task_wf hw
  rw [h2] at h
  cases h
  exact ⟨hd2, hc2, hu2⟩

theorem rowsToTasks_all_wf {l : List TaskDict} (h : ∀ r ∈ l, WfRow r) :
    ∃ ts, SQLiteTaskRepository.rowsToTasks l = some ts ∧
      List.Forall₂
        (fun r t => Task.to_dict t = r ∧
          t.created_at.valid ∧ t.updated_at.valid) l ts := by
  induction l with
  | nil => exact ⟨[], rfl, .nil⟩
  | cons r rs ih =>
      obtain ⟨t, ht, htd, htc, htu⟩ := row_to_task_wf (h r (by simp))
      obtain ⟨ts, hts, hf⟩ := ih (fun x hx => h x (by simp [hx]))
      refine ⟨t :: ts, ?_, .cons ⟨htd, htc, htu⟩ hf⟩
      unfold SQLiteTaskRepository.rowsToTasks
      simp [ht, hts]

theorem forall₂_mem_right {α β : Type} {R : α → β → Prop} {l : List α}
    {l' : List β} (hf : List.Forall₂ R l l') {b : β} (hb : b ∈ l') :
    ∃ a ∈ l, R a b := by
  induction hf with
  | nil => simp at hb
  | cons hr hf2 ih =>
      rcases List.mem_cons.mp hb with rfl | hb2
      · exact ⟨_, by simp, hr⟩
      · obtain ⟨a, ha, hab⟩ := ih hb2
        exact ⟨a, by simp [ha], hab⟩

theorem forall₂_map_to_dict {l : List TaskDict} {l' : List Task}
    (hf : List.Forall₂
      (fun r t => Task.to_dict t = r ∧
        t.created_at.valid ∧ t.updated_at.valid) l l') :
    l'.map Task.to_dict = l := by
  induction hf with
  | nil => rfl
  | cons hr hf2 ih => simp [ih, hr.1]

theorem pairwise_across_forall₂ {α β : Type} {R : α → β → Prop}
    {P : α → α → Prop} {Q : β → β → Prop} {l : List α} {l' : List β}
    (hf : List.Forall₂ R l l') (hp : l.Pairwise P)
    (himp : ∀ a b a2 b2, R a b → R a2 b2 → P a a2 → Q b b2) :
    l'.Pairwise Q := by
  induction hf with
  | nil => exact .nil
  | cons hr hf2 ih =>
      rename_i a b as bs
      cases hp with
      | cons hpa hpl =>
          refine .cons ?_ (ih hpl)
          intro b2 hb2
          obtain ⟨a2, ha2, hab2⟩ := forall₂_mem_right hf2 hb2
          exact himp a b a2 b2 hr hab2 (hpa a2 ha2)

/-! ## Dictionary lemmas -/

theorem find_by_id_mem {st : List Task} {i : PyStr} {t : Task}
    (h : MemoryTaskRepository.find_by_id st i = some t) :
    t ∈ st ∧ t.id = i := by
  unfold MemoryTaskRepository.find_by_id at h
  refine ⟨List.mem_of_find?_eq_some h, ?_⟩
  have := List.find?_some h
  simpa using this

theorem any_id_of_find {st : List Task} {i : PyStr} {t : Task}
    (h : MemoryTaskRepository.find_by_id st i = some t) :
    st.any (fun x => x.id == t.id) = true := by
  obtain ⟨hm, hi⟩ := find_by_id_mem h
  rw [List.any_eq_true]
  exact ⟨t, hm, by simp⟩

theorem dictSet_self {st : List Task} {i : PyStr} {t : Task}
    (hn : IdsNodup st)
    (h : MemoryTaskRepository.find_by_id st i = some t) :
    dictSet st t = st := by
  obtain ⟨hm, hi⟩ := find_by_id_mem h
  have hinj := List.inj_on_of_nodup_map hn
  unfold dictSet
  rw [if_pos (any_id_of_find h)]
  calc st.map (fun x => if x.id == t.id then t else x)
      = st.map id := by
        refine List.map_congr_left ?_
        intro x hx
        by_cases hxe : x.id == t.id
        · have hxt : x = t := hinj hx hm (by simpa using hxe)
          simp [hxe, hxt]
        · simp [hxe]
    _ = st := List.map_id st

theorem find_map_replace {st : List Task} {t : Task}
    (h : st.any (fun x => x.id == t.id) = true) :
    (st.map (fun x => if x.id == t.id then t else x)).find?
      (fun x => x.id == t.id) = some t := by
  induction st with
  | nil => simp at h
  | cons x xs ih =>
      by_cases hx : (x.id == t.id) = true
      · simp [List.find?, hx]
      · have h2 : xs.any (fun x => x.id == t.id) = true := by
          rcases List.any_eq_true.mp h with ⟨y, hy, hyp⟩
          rcases List.mem_cons.mp hy with rfl | hy2
          · exact absurd hyp hx
          · exact List.any_eq_true.mpr ⟨y, hy2, hyp⟩
        simpa [List.find?, hx] using ih h2

theorem find_dictSet {st : List Task} {t : Task}
    (h : st.any (fun x => x.id == t.id) = true) :
    MemoryTaskRepository.find_by_id (dictSet st t) t.id = some t := by
  unfold dictSet MemoryTaskRepository.find_by_id
  rw [if_pos h]
  exact find_map_replace h

theorem mem_dictSet {st : List Task} {t : Task}
    (h : st.any (fun x => x.id == t.id) = true) : t ∈ dictSet st t :=
  (find_by_id_mem (find_dictSet h)).1

theorem any_dictSet {st : List Task} {t t2 : Task}
    (h : st.any (fun x => x.id == t.id) = true) (hid : t2.id = t.id) :
    (dictSet st t).any (fun x => x.id == t2.id) = true :=
  List.any_eq_true.mpr ⟨t, mem_dictSet h, by simp [hid]⟩

/-- Uniqueness of the primary-key column of the modelled table. -/
def RowIdsNodup (st : List TaskDict) : Prop := (st.map TaskDict.id).Nodup

/-! ## Identifier generation -/

theorem hexPad_length (w n : Nat) : (hexPad w n).length = w := by
  induction w generalizing n with
  | zero => rfl
  | succ w ih => simp [hexPad, ih]

theorem uuid4String_ne_nil (u : Nat) : uuid4String u ≠ [] := by
  unfold uuid4String
  intro h
  have hlen := congrArg List.length h
  simp [hexPad_length] at hlen

/-! ## Entity operation sequences (for the entity-level invariant) -/

/-- One entity-level mutation, carrying the time the setter reads from
the clock. -/
inductive TaskOp where
  | setTitle (new_title : PyStr) (now : DateTime)
  | setStatus (new_status : PyStr) (now : DateTime)

/-- The clock value a mutation stamps into `updated_at` on success. -/
def TaskOp.time : TaskOp → DateTime
  | .setTitle _ now => now
  | .setStatus _ now => now

/-- A mutation input the entity accepts: a title that is non-empty after
trimming, or a status string in the closed enumeration. -/
def TaskOp.validInput : TaskOp → Prop
  | .setTitle s _ => pyStrip s ≠ []
  | .setStatus s _ => (TaskStatus.ofValue s).isSome

instance (op : TaskOp) : Decidable op.validInput := by
  cases op <;> unfold TaskOp.validInput <;> infer_instance

instance (st : List Task) : Decidable (IdsNodup st) := by
  unfold IdsNodup; infer_instance

instance (st : List TaskDict) : Decidable (RowIdsNodup st) := by
  unfold RowIdsNodup; infer_instance

/-- Run one mutation. -/
def applyOp (t : Task) : TaskOp → Except PyErr Task
  | .setTitle s now => t.update_title s now
  | .setStatus s now => t.update_status s now

/-- Run a sequence of mutations, stopping at the first ValidationError. -/
def applyOps (t : Task) : List TaskOp → Except PyErr Task
  | [] => .ok t
  | op :: ops =>
      match applyOp t op with
      | .error e => .error e
      | .ok t2 => applyOps t2 ops

/-- The entity invariant: a non-whitespace-only title, a status in the
enumeration, and `updated_at` at or after `created_at`. -/
def TaskInv (t : Task) : Prop :=
  t.title ≠ [] ∧ (∃ c ∈ t.title, isPySpace c = false) ∧
  (t.status = .pending ∨ t.status = .done) ∧
  DateTime.le t.created_at t.updated_at = true

theorem dtLe_refl (d : DateTime) : DateTime.le d d = true :=
  natListLe_refl _

theorem applyOps_ok {t0 : Task} {ops : List TaskOp} (hinv : TaskInv t0)
    (hops : ∀ op ∈ ops,
      op.validInput ∧ DateTime.le t0.created_at op.time = true) :
    ∃ t, applyOps t0 ops = .ok t ∧ TaskInv t ∧
      t.created_at = t0.created_at := by
  induction ops generalizing t0 with
  | nil => exact ⟨t0, rfl, hinv, rfl⟩
  | cons op ops ih =>
      obtain ⟨hv, htime⟩ := hops op (by simp)
      obtain ⟨t1, ht1, hinv1, hca⟩ :
          ∃ t1, applyOp t0 op = .ok t1 ∧ TaskInv t1 ∧
            t1.created_at = t0.created_at := by
        cases op with
        | setTitle s now =>
            simp only [TaskOp.validInput] at hv
            refine ⟨{ t0 with title := pyStrip s, updated_at := now },
              ?_, ⟨hv, pyStrip_has_nonspace hv, hinv.2.2.1, htime⟩, rfl⟩
            show Task.update_title t0 s now = _
            unfold Task.update_title
            rw [if_neg ?_]
            rintro (rfl | hbad)
            · exact hv rfl
            · exact hv hbad
        | setStatus s now =>
            simp only [TaskOp.validInput, Option.isSome_iff_exists] at hv
            obtain ⟨stv, hstv⟩ := hv
            refine ⟨{ t0 with status := stv, updated_at := now },
              ?_, ⟨hinv.1, hinv.2.1, by cases stv <;> simp, htime⟩, rfl⟩
            show Task.update_status t0 s now = _
            unfold Task.update_status
            rw [hstv]
      obtain ⟨t, hts, hinvt, hcat⟩ := ih hinv1
        (fun op2 hop2 => by
          obtain ⟨hv2, ht2⟩ := hops op2 (by simp [hop2])
          exact ⟨hv2, hca ▸ ht2⟩)
      exact ⟨t, by simp [applyOps, ht1, hts], hinvt, hcat.trans hca⟩

/-! ## Concrete sample data used by witnesses and counterexamples -/

def dt0 : DateTime := ⟨2025, 10, 29, 10, 30, 0, 0⟩

def dt1 : DateTime := ⟨2025, 10, 29, 11, 0, 0, 5⟩

def dt2 : DateTime := ⟨2025, 10, 30, 9, 15, 30, 123456⟩

def task0 : Task := ⟨pystr "a", pystr "Original", .pending, dt0, dt0⟩

def task1 : Task := ⟨pystr "b", pystr "Second", .done, dt1, dt1⟩

/-! ## Claim theorems -/

/-- C4: for every title whose trimmed form is non-empty and every status
string in \x7bpending, done\x7d, `Task.create` succeeds and returns a task
whose title is the trimmed input, whose status stamps the requested value,
whose id is a non-empty string, and whose `created_at` equals its
`updated_at`. -/
theorem C4_create_valid (title s : PyStr) (u : Nat) (now : DateTime)
    (htitle : pyStrip title ≠ [])
    (hs : s = pystr "pending" ∨ s = pystr "done") :
    ∃ t : Task, Task.create title s u now = .ok t ∧
      t.title = pyStrip title ∧ t.status.value = s ∧ t.id ≠ [] ∧
      t.created_at = now ∧ t.updated_at = now := by
  have hne : ¬ (title = [] ∨ pyStrip title = []) := by
    rintro (rfl | h)
    · exact htitle rfl
    · exact htitle h
  obtain ⟨stv, hstv⟩ : ∃ stv, TaskStatus.ofValue s = some stv := by
    rcases hs with rfl | rfl
    · exact ⟨.pending, rfl⟩
    · exact ⟨.done, rfl⟩
  refine ⟨⟨uuid4String u, pyStrip title, stv, now, now⟩, ?_, rfl,
    value_ofValue hstv, uuid4String_ne_nil u, rfl, rfl⟩
  unfold Task.create
  rw [if_neg hne, hstv]

/-- Witness for C4 at a concrete input. -/
theorem C4_create_valid_witness :
    ∃ t : Task,
      Task.create (pystr "  Write report ") (pystr "done") 7 dt0 = .ok t ∧
      t.title = pyStrip (pystr "  Write report ") ∧
      t.status.value = pystr "done" ∧ t.id ≠ [] ∧
      t.created_at = dt0 ∧ t.updated_at = dt0 :=
  C4_create_valid (pystr "  Write report ") (pystr "done") 7 dt0
    (by decide) (Or.inr rfl)

/-- C8: creating a task from the empty title, a whitespace-only title, or
a status outside the enumeration raises ValidationError on either backend,
and the backend contents are untouched by the failed call. -/
theorem C8_create_invalid_no_persist (u : Nat) (now : DateTime) :
    (∀ st : List Task,
      TaskService.create_task_mem st (pystr "") (pystr "pending") u now
        = (.error (.valueError (pystr "Title cannot be empty")), st) ∧
      TaskService.create_task_mem st (pystr "   ") (pystr "pending") u now
        = (.error (.valueError (pystr "Title cannot be empty")), st) ∧
      TaskService.create_task_mem st (pystr "x") (pystr "bogus") u now
        = (.error (.valueError
            (pystr "Invalid status, must be one of: pending, done")), st)) ∧
    (∀ st : List TaskDict,
      TaskService.create_task_sql st (pystr "") (pystr "pending") u now
        = (.error (.valueError (pystr "Title cannot be empty")), st) ∧
      TaskService.create_task_sql st (pystr "   ") (pystr "pending") u now
        = (.error (.valueError (pystr "Title cannot be empty")), st) ∧
      TaskService.create_task_sql st (pystr "x") (pystr "bogus") u now
        = (.error (.valueError
            (pystr "Invalid status, must be one of: pending, done")), st)) := by
  constructor <;> intro st <;> refine ⟨?_, ?_, ?_⟩ <;> rfl

/-- C9: on a duplicate id, the in-memory backend's `save` silently
overwrites and returns the task, while the SQLite backend's `save` raises
an integrity error and leaves the table unchanged — the two backends
genuinely diverge. -/
theorem C9_duplicate_save_divergence (t : Task) (stm : List Task)
    (sts : List TaskDict) (hm : ∃ x ∈ stm, x.id = t.id)
    (hsql : ∃ r ∈ sts, r.id = t.id) :
    MemoryTaskRepository.save stm t = (t, dictSet stm t) ∧
    MemoryTaskRepository.find_by_id (dictSet stm t) t.id = some t ∧
    SQLiteTaskRepository.save sts t = (.error .integrityError, sts) := by
  obtain ⟨x, hx, hxid⟩ := hm
  obtain ⟨r, hr, hrid⟩ := hsql
  have ham : stm.any (fun x => x.id == t.id) = true :=
    List.any_eq_true.mpr ⟨x, hx, by simp [hxid]⟩
  have has : sts.any (fun r => r.id == t.id) = true :=
    List.any_eq_true.mpr ⟨r, hr, by simp [hrid]⟩
  refine ⟨rfl, find_dictSet ham, ?_⟩
  unfold SQLiteTaskRepository.save
  rw [if_pos has]

/-- Witness for C9 at a concrete duplicate id. -/
theorem C9_duplicate_save_divergence_witness :
    MemoryTaskRepository.save [task0]
        { task0 with title := pystr "Changed" }
      = ({ task0 with title := pystr "Changed" },
         dictSet [task0] { task0 with title := pystr "Changed" }) ∧
    MemoryTaskRepository.find_by_id
        (dictSet [task0] { task0 with title := pystr "Changed" })
        ({ task0 with title := pystr "Changed" }).id
      = some { task0 with title := pystr "Changed" } ∧
    SQLiteTaskRepository.save [Task.to_dict task0]
        { task0 with title := pystr "Changed" }
      = (.error .integrityError, [Task.to_dict task0]) :=
  C9_duplicate_save_divergence { task0 with title := pystr "Changed" }
    [task0] [Task.to_dict task0] ⟨task0, by simp, by decide⟩
    ⟨Task.to_dict task0, by simp, by decide⟩

/-- C3: a task built by a successful `Task.create` and mutated by any
interleaving of `update_title` and `update_status` with valid inputs
(each setter reading the clock at or after creation time) always has a
non-empty, non-whitespace-only title, a status in the closed enumeration,
and `updated_at` at or after `created_at`. -/
theorem C3_entity_invariants (title status : PyStr) (u : Nat)
    (now0 : DateTime) (ops : List TaskOp) (t0 : Task)
    (hc : Task.create title status u now0 = .ok t0)
    (hops : ∀ op ∈ ops,
      op.validInput ∧ DateTime.le now0 op.time = true) :
    ∃ t, applyOps t0 ops = .ok t ∧ t.title ≠ [] ∧
      (∃ c ∈ t.title, isPySpace c = false) ∧
      (t.status = .pending ∨ t.status = .done) ∧
      DateTime.le t.created_at t.updated_at = true := by
  unfold Task.create at hc
  by_cases hbad : title = [] ∨ pyStrip title = []
  · rw [if_pos hbad] at hc; cases hc
  · rw [if_neg hbad] at hc
    cases hstv : TaskStatus.ofValue status with
    | none => rw [hstv] at hc; cases hc
    | some stv =>
        rw [hstv] at hc
        cases hc
        have htitle : pyStrip title ≠ [] := fun h => hbad (Or.inr h)
        have hinv :
            TaskInv ⟨uuid4String u, pyStrip title, stv, now0, now0⟩ :=
          ⟨htitle, pyStrip_has_nonspace htitle, by cases stv <;> simp,
            dtLe_refl now0⟩
        obtain ⟨t, hts, hinvt, hca⟩ := applyOps_ok hinv hops
        exact ⟨t, hts, hinvt.1, hinvt.2.1, hinvt.2.2.1, hinvt.2.2.2⟩

/-- Witness for C3 at a concrete creation and operation list. -/
theorem C3_entity_invariants_witness :
    ∃ t,
      applyOps ⟨uuid4String 3, pystr "Write report", .pending, dt0, dt0⟩
        [TaskOp.setStatus (pystr "done") dt1,
         TaskOp.setTitle (pystr "  New title  ") dt2] = .ok t ∧
      t.title ≠ [] ∧ (∃ c ∈ t.title, isPySpace c = false) ∧
      (t.status = .pending ∨ t.status = .done) ∧
      DateTime.le t.created_at t.updated_at = true :=
  C3_entity_invariants (pystr "Write report") (pystr "pending") 3 dt0
    [TaskOp.setStatus (pystr "done") dt1,
     TaskOp.setTitle (pystr "  New title  ") dt2]
    ⟨uuid4String 3, pystr "Write report", .pending, dt0, dt0⟩
    (by decide)
    (by
      intro op hop
      rcases List.mem_cons.mp hop with rfl | hop2
      · exact ⟨by decide, by decide⟩
      · rcases List.mem_cons.mp hop2 with rfl | hop3
        · exact ⟨by decide, by decide⟩
        · simp at hop3)

/-- C10: `update_task` with neither title nor status supplied does not
raise, returns the stored task with all five fields (updated_at included)
unchanged, and leaves the backend exactly as it was, on both backends. -/
theorem C10_update_task_noop (task_id : PyStr) (nowT nowS : DateTime) :
    (∀ (st : List Task) (task : Task), IdsNodup st →
      MemoryTaskRepository.find_by_id st task_id = some task →
      TaskService.update_task_mem st task_id none none nowT nowS
        = (.ok (some task), st)) ∧
    (∀ (sts : List TaskDict) (r : TaskDict) (task : Task),
      RowIdsNodup sts → (∀ x ∈ sts, WfRow x) →
      sts.find? (fun x => x.id == task_id) = some r →
      SQLiteTaskRepository.row_to_task r = some task →
      TaskService.update_task_sql sts task_id none none nowT nowS
        = (.ok (some task), sts)) := by
  constructor
  · intro st task hn hf
    have hds : dictSet st task = st := dictSet_self hn hf
    have ha : st.any (fun x => x.id == task.id) = true := any_id_of_find hf
    simp only [TaskService.update_task_mem, hf, TaskService.titleStep,
      TaskService.statusStep, hds, MemoryTaskRepository.update, ha,
      if_true]
  · intro sts r task hn hw hf hrt
    have hmem : r ∈ sts := List.mem_of_find?_eq_some hf
    obtain ⟨htd, htc, htu⟩ := row_to_task_eq_of_wf (hw r hmem) hrt
    have hid : task.id = r.id := congrArg TaskDict.id htd
    have htitle : task.title = r.title := congrArg TaskDict.title htd
    have hstatus : task.status.value = r.status :=
      congrArg TaskDict.status htd
    have hua : task.updated_at.isoformat = r.updated_at :=
      congrArg TaskDict.updated_at htd
    have hany : sts.any (fun x => x.id == task.id) = true :=
      List.any_eq_true.mpr ⟨r, hmem, by simp [hid]⟩
    have hinj := List.inj_on_of_nodup_map hn
    have hmap : sts.map (fun x => if x.id == task.id then
        { x with title := task.title, status := task.status.value,
                 updated_at := task.updated_at.isoformat } else x)
        = sts := by
      calc sts.map (fun x => if x.id == task.id then
              { x with title := task.title, status := task.status.value,
                       updated_at := task.updated_at.isoformat } else x)
          = sts.map id := by
            refine List.map_congr_left ?_
            intro x hx
            by_cases hxe : (x.id == task.id) = true
            · have hxr : x = r := by
                refine hinj hx hmem ?_
                rw [beq_iff_eq] at hxe
                rw [hxe, hid]
              subst hxr
              rw [if_pos hxe, htitle, hstatus, hua]
              rfl
            · simp [hxe]
        _ = sts := List.map_id sts
    simp only [TaskService.update_task_sql,
      SQLiteTaskRepository.find_by_id, hf, hrt,
      TaskService.titleStep, TaskService.statusStep,
      SQLiteTaskRepository.update, hany, if_true, hmap]

/-- Witness for C10 on both backends at a concrete stored task. -/
theorem C10_update_task_noop_witness :
    (TaskService.update_task_mem [task0] (pystr "a") none none dt1 dt1
      = (.ok (some task0), [task0])) ∧
    (TaskService.update_task_sql [Task.to_dict task0] (pystr "a")
        none none dt1 dt1
      = (.ok (some task0), [Task.to_dict task0])) :=
  ⟨(C10_update_task_noop (pystr "a") dt1 dt1).1 [task0] task0
      (by decide) (by decide),
   (C10_update_task_noop (pystr "a") dt1 dt1).2 [Task.to_dict task0]
      (Task.to_dict task0) task0 (by decide)
      (by
        intro x hx
        rcases List.mem_singleton.mp hx with rfl
        exact to_dict_wf task0 (by decide) (by decide))
      (by decide) (by decide)⟩

theorem find_dictSet_key {st : List Task} {t : Task} {key : PyStr}
    (hk : t.id = key) (h : st.any (fun x => x.id == t.id) = true) :
    MemoryTaskRepository.find_by_id (dictSet st t) key = some t := by
  subst hk
  exact find_dictSet h

/-- C5: on either backend, `update_task` supplying only a valid status
returns a task whose title and created_at equal the stored values with
the status replaced and updated_at advanced to the later clock value;
symmetrically, supplying only a valid title leaves the status untouched
while updated_at advances.  The first two conjuncts settle the in-memory
backend (also storing the result), the last two the relational backend,
whose stored values are the found row's columns. -/
theorem C5_partial_update (st : List Task) (task_id ti s : PyStr)
    (task : Task) (nowT nowS : DateTime) (stv : TaskStatus)
    (hn : IdsNodup st)
    (hf : MemoryTaskRepository.find_by_id st task_id = some task)
    (hs : TaskStatus.ofValue s = some stv)
    (hti : pyStrip ti ≠ [])
    (hadvS : DateTime.le task.updated_at nowS = true ∧
      nowS ≠ task.updated_at)
    (hadvT : DateTime.le task.updated_at nowT = true ∧
      nowT ≠ task.updated_at) :
    (∃ t2 st2,
      TaskService.update_task_mem st task_id none (some s) nowT nowS
        = (.ok (some t2), st2) ∧
      t2.title = task.title ∧ t2.created_at = task.created_at ∧
      t2.status = stv ∧ t2.updated_at = nowS ∧
      DateTime.le task.updated_at t2.updated_at = true ∧
      t2.updated_at ≠ task.updated_at ∧
      MemoryTaskRepository.find_by_id st2 task_id = some t2) ∧
    (∃ t2 st2,
      TaskService.update_task_mem st task_id (some ti) none nowT nowS
        = (.ok (some t2), st2) ∧
      t2.status = task.status ∧ t2.created_at = task.created_at ∧
      t2.title = pyStrip ti ∧ t2.updated_at = nowT ∧
      DateTime.le task.updated_at t2.updated_at = true ∧
      t2.updated_at ≠ task.updated_at ∧
      MemoryTaskRepository.find_by_id st2 task_id = some t2) ∧
    (∀ (sts : List TaskDict) (r : TaskDict) (taskS : Task),
      sts.find? (fun x => x.id == task_id) = some r → WfRow r →
      SQLiteTaskRepository.row_to_task r = some taskS →
      DateTime.le taskS.updated_at nowS = true →
      nowS ≠ taskS.updated_at →
      ∃ t2 sts2,
        TaskService.update_task_sql sts task_id none (some s) nowT nowS
          = (.ok (some t2), sts2) ∧
        t2.title = taskS.title ∧ t2.title = r.title ∧
        t2.created_at = taskS.created_at ∧
        t2.created_at.isoformat = r.created_at ∧
        t2.status = stv ∧ t2.updated_at = nowS ∧
        DateTime.le taskS.updated_at t2.updated_at = true ∧
        t2.updated_at ≠ taskS.updated_at) ∧
    (∀ (sts : List TaskDict) (r : TaskDict) (taskS : Task),
      sts.find? (fun x => x.id == task_id) = some r → WfRow r →
      SQLiteTaskRepository.row_to_task r = some taskS →
      DateTime.le taskS.updated_at nowT = true →
      nowT ≠ taskS.updated_at →
      ∃ t2 sts2,
        TaskService.update_task_sql sts task_id (some ti) none nowT nowS
          = (.ok (some t2), sts2) ∧
        t2.status = taskS.status ∧ t2.status.value = r.status ∧
        t2.created_at = taskS.created_at ∧
        t2.created_at.isoformat = r.created_at ∧
        t2.title = pyStrip ti ∧ t2.updated_at = nowT ∧
        DateTime.le taskS.updated_at t2.updated_at = true ∧
        t2.updated_at ≠ taskS.updated_at) := by
  have hds : dictSet st task = st := dictSet_self hn hf
  have ha : st.any (fun x => x.id == task.id) = true := any_id_of_find hf
  have hkey : task.id = task_id := (find_by_id_mem hf).2
  refine ⟨?_, ?_, ?_, ?_⟩
  · refine ⟨{ task with status := stv, updated_at := nowS },
      dictSet (dictSet st { task with status := stv, updated_at := nowS })
        { task with status := stv, updated_at := nowS },
      ?_, rfl, rfl, rfl, rfl, hadvS.1, hadvS.2, ?_⟩
    · have hup : Task.update_status task s nowS
          = .ok { task with status := stv, updated_at := nowS } := by
        unfold Task.update_status
        rw [hs]
      have ha2 : (dictSet st
            { task with status := stv, updated_at := nowS }).any
          (fun x => x.id ==
            ({ task with status := stv, updated_at := nowS } : Task).id)
          = true := any_dictSet ha rfl
      simp only [TaskService.update_task_mem, hf, TaskService.titleStep,
        TaskService.statusStep, hup, hds, MemoryTaskRepository.update,
        ha2, if_true]
    · have ha2 : (dictSet st
            { task with status := stv, updated_at := nowS }).any
          (fun x => x.id ==
            ({ task with status := stv, updated_at := nowS } : Task).id)
          = true := any_dictSet ha rfl
      exact find_dictSet_key hkey ha2
  · refine ⟨{ task with title := pyStrip ti, updated_at := nowT },
      dictSet (dictSet (dictSet st
          { task with title := pyStrip ti, updated_at := nowT })
        { task with title := pyStrip ti, updated_at := nowT })
        { task with title := pyStrip ti, updated_at := nowT },
      ?_, rfl, rfl, rfl, rfl, hadvT.1, hadvT.2, ?_⟩
    · have hup : Task.update_title task ti nowT
          = .ok { task with title := pyStrip ti, updated_at := nowT } := by
        unfold Task.update_title
        rw [if_neg ?_]
        rintro (rfl | hbad)
        · exact hti rfl
        · exact hti hbad
      have ha2 : (dictSet st
            { task with title := pyStrip ti, updated_at := nowT }).any
          (fun x => x.id ==
            ({ task with title := pyStrip ti, updated_at := nowT } : Task).id)
          = true := any_dictSet ha rfl
      simp only [TaskService.update_task_mem, hf, TaskService.titleStep,
        TaskService.statusStep, hup, MemoryTaskRepository.update,
        ha2, any_dictSet ha2 rfl, if_true]
    · have ha2 : (dictSet st
            { task with title := pyStrip ti, updated_at := nowT }).any
          (fun x => x.id ==
            ({ task with title := pyStrip ti, updated_at := nowT } : Task).id)
          = true := any_dictSet ha rfl
      exact find_dictSet_key hkey (any_dictSet ha2 rfl)
  · intro sts r taskS hfr hwr hrt hle hne
    have hmem : r ∈ sts := List.mem_of_find?_eq_some hfr
    obtain ⟨htd, _, _⟩ := row_to_task_eq_of_wf hwr hrt
    have hid : taskS.id = r.id := congrArg TaskDict.id htd
    have hany : sts.any (fun x => x.id ==
        ({ taskS with status := stv, updated_at := nowS } : Task).id)
        = true := List.any_eq_true.mpr ⟨r, hmem, by simp [hid]⟩
    have hup : Task.update_status taskS s nowS
        = .ok { taskS with status := stv, updated_at := nowS } := by
      unfold Task.update_status
      rw [hs]
    refine ⟨{ taskS with status := stv, updated_at := nowS },
      (SQLiteTaskRepository.update sts
        { taskS with status := stv, updated_at := nowS }).2, ?_,
      rfl, congrArg TaskDict.title htd, rfl,
      congrArg TaskDict.created_at htd, rfl, rfl, hle, hne⟩
    simp only [TaskService.update_task_sql,
      SQLiteTaskRepository.find_by_id, hfr, hrt,
      TaskService.titleStep, TaskService.statusStep, hup,
      SQLiteTaskRepository.update, hany, if_true]
  · intro sts r taskS hfr hwr hrt hle hne
    have hmem : r ∈ sts := List.mem_of_find?_eq_some hfr
    obtain ⟨htd, _, _⟩ := row_to_task_eq_of_wf hwr hrt
    have hid : taskS.id = r.id := congrArg TaskDict.id htd
    have hany : sts.any (fun x => x.id ==
        ({ taskS with title := pyStrip ti, updated_at := nowT } : Task).id)
        = true := List.any_eq_true.mpr ⟨r, hmem, by simp [hid]⟩
    have hup : Task.update_title taskS ti nowT
        = .ok { taskS with title := pyStrip ti, updated_at := nowT } := by
      unfold Task.update_title
      rw [if_neg ?_]
      rintro (rfl | hbad)
      · exact hti rfl
      · exact hti hbad
    refine ⟨{ taskS with title := pyStrip ti, updated_at := nowT },
      (SQLiteTaskRepository.update sts
        { taskS with title := pyStrip ti, updated_at := nowT }).2, ?_,
      rfl, congrArg TaskDict.status htd, rfl,
      congrArg TaskDict.created_at htd, rfl, rfl, hle, hne⟩
    simp only [TaskService.update_task_sql,
      SQLiteTaskRepository.find_by_id, hfr, hrt,
      TaskService.titleStep, TaskService.statusStep, hup,
      SQLiteTaskRepository.update, hany, if_true]

/-- Witness for C5 at a concrete task stored on both backends. -/
theorem C5_partial_update_witness :
    (∃ t2 st2,
      TaskService.update_task_mem [task0] (pystr "a") none
          (some (pystr "done")) dt1 dt2
        = (.ok (some t2), st2) ∧
      t2.title = task0.title ∧ t2.created_at = task0.created_at ∧
      t2.status = TaskStatus.done ∧ t2.updated_at = dt2 ∧
      DateTime.le task0.updated_at t2.updated_at = true ∧
      t2.updated_at ≠ task0.updated_at ∧
      MemoryTaskRepository.find_by_id st2 (pystr "a") = some t2) ∧
    (∃ t2 st2,
      TaskService.update_task_mem [task0] (pystr "a")
          (some (pystr " Renamed ")) none dt1 dt2
        = (.ok (some t2), st2) ∧
      t2.status = task0.status ∧ t2.created_at = task0.created_at ∧
      t2.title = pyStrip (pystr " Renamed ") ∧ t2.updated_at = dt1 ∧
      DateTime.le task0.updated_at t2.updated_at = true ∧
      t2.updated_at ≠ task0.updated_at ∧
      MemoryTaskRepository.find_by_id st2 (pystr "a") = some t2) ∧
    (∃ t2 sts2,
      TaskService.update_task_sql [Task.to_dict task0] (pystr "a") none
          (some (pystr "done")) dt1 dt2
        = (.ok (some t2), sts2) ∧
      t2.title = task0.title ∧ t2.title = (Task.to_dict task0).title ∧
      t2.created_at = task0.created_at ∧
      t2.created_at.isoformat = (Task.to_dict task0).created_at ∧
      t2.status = TaskStatus.done ∧ t2.updated_at = dt2 ∧
      DateTime.le task0.updated_at t2.updated_at = true ∧
      t2.updated_at ≠ task0.updated_at) ∧
    (∃ t2 sts2,
      TaskService.update_task_sql [Task.to_dict task0] (pystr "a")
          (some (pystr " Renamed ")) none dt1 dt2
        = (.ok (some t2), sts2) ∧
      t2.status = task0.status ∧
      t2.status.value = (Task.to_dict task0).status ∧
      t2.created_at = task0.created_at ∧
      t2.created_at.isoformat = (Task.to_dict task0).created_at ∧
      t2.title = pyStrip (pystr " Renamed ") ∧ t2.updated_at = dt1 ∧
      DateTime.le task0.updated_at t2.updated_at = true ∧
      t2.updated_at ≠ task0.updated_at) :=
  have h := C5_partial_update [task0] (pystr "a") (pystr " Renamed ")
    (pystr "done") task0 dt1 dt2 .done (by decide) (by decide)
    (by decide) (by decide) ⟨by decide, by decide⟩ ⟨by decide, by decide⟩
  ⟨h.1, h.2.1,
   h.2.2.1 [Task.to_dict task0] (Task.to_dict task0) task0 (by decide)
     (to_dict_wf task0 (by decide) (by decide)) (by decide) (by decide)
     (by decide),
   h.2.2.2 [Task.to_dict task0] (Task.to_dict task0) task0 (by decide)
     (to_dict_wf task0 (by decide) (by decide)) (by decide) (by decide)
     (by decide)⟩

/-- C6: serializing a task, deserializing it through the relational
backend's row conversion, and serializing again reproduces the first
serialization exactly. -/
theorem C6_serialize_roundtrip (t : Task) (hc : t.created_at.valid)
    (hu : t.updated_at.valid) :
    (SQLiteTaskRepository.row_to_task (Task.to_dict t)).map Task.to_dict
      = some (Task.to_dict t) := by
  obtain ⟨t2, ht2, htd, _, _⟩ := row_to_task_wf (to_dict_wf t hc hu)
  rw [ht2]
  simp [htd]

/-- Witness for C6 at a concrete task (nonzero microsecond field). -/
theorem C6_serialize_roundtrip_witness :
    (SQLiteTaskRepository.row_to_task (Task.to_dict task1)).map
        Task.to_dict
      = some (Task.to_dict task1) :=
  C6_serialize_roundtrip task1 (by decide) (by decide)

/-- C2 as stated fails on the relational backend: `update` returns the
task but leaves the stored row's created_at column at its old value, so
the stored record does not receive all of the task's fields. -/
theorem C2_counterexample :
    (SQLiteTaskRepository.update [Task.to_dict task0]
        { task0 with created_at := dt1 }).1
      = some { task0 with created_at := dt1 } ∧
    (SQLiteTaskRepository.update [Task.to_dict task0]
        { task0 with created_at := dt1 }).2.map TaskDict.created_at
      = [dt0.isoformat] ∧
    (Task.to_dict { task0 with created_at := dt1 }).created_at
      = dt1.isoformat ∧
    dt0.isoformat ≠ dt1.isoformat := by decide

/-- C2 amended: on a matching id both backends return the task, and on a
missing id both return the absent-marker leaving the store unchanged; the
in-memory backend overwrites the stored record with all of the task's
fields, while the relational backend overwrites only title, status, and
updated_at, keeping the stored row's created_at. -/
theorem C2_update_semantics :
    (∀ (st : List Task) (t : Task),
      st.any (fun x => x.id == t.id) = true →
      MemoryTaskRepository.update st t = (some t, dictSet st t) ∧
      MemoryTaskRepository.find_by_id (dictSet st t) t.id = some t) ∧
    (∀ (st : List Task) (t : Task),
      st.any (fun x => x.id == t.id) = false →
      MemoryTaskRepository.update st t = (none, st)) ∧
    (∀ (sts : List TaskDict) (t : Task),
      sts.any (fun r => r.id == t.id) = true →
      ∃ sts2, SQLiteTaskRepository.update sts t = (some t, sts2) ∧
        ∀ r ∈ sts,
          (r.id ≠ t.id → r ∈ sts2) ∧
          (r.id = t.id →
            { r with title := t.title, status := t.status.value,
                     updated_at := t.updated_at.isoformat } ∈ sts2)) ∧
    (∀ (sts : List TaskDict) (t : Task),
      sts.any (fun r => r.id == t.id) = false →
      SQLiteTaskRepository.update sts t = (none, sts)) := by
  refine ⟨?_, ?_, ?_, ?_⟩
  · intro st t h
    constructor
    · unfold MemoryTaskRepository.update
      rw [if_pos h]
    · exact find_dictSet h
  · intro st t h
    unfold MemoryTaskRepository.update
    rw [if_neg (by simp [h])]
  · intro sts t h
    refine ⟨_, by unfold SQLiteTaskRepository.update; rw [if_pos h], ?_⟩
    intro r hr
    constructor
    · intro hne
      have hcond : ¬ ((r.id == t.id) = true) := by simp [hne]
      have hmm := List.mem_map_of_mem
        (f := fun r : TaskDict => if r.id == t.id then
          { r with title := t.title, status := t.status.value,
                   updated_at := t.updated_at.isoformat } else r) hr
      simpa [hcond] using hmm
    · intro heq
      have hcond : (r.id == t.id) = true := by simp [heq]
      have hmm := List.mem_map_of_mem
        (f := fun r : TaskDict => if r.id == t.id then
          { r with title := t.title, status := t.status.value,
                   updated_at := t.updated_at.isoformat } else r) hr
      simpa [hcond] using hmm
  · intro sts t h
    unfold SQLiteTaskRepository.update
    rw [if_neg (by simp [h])]

/-- Witness for the amended C2 at concrete present and absent ids. -/
theorem C2_update_semantics_witness :
    (MemoryTaskRepository.update [task0]
        { task0 with title := pystr "New" }
      = (some { task0 with title := pystr "New" },
         dictSet [task0] { task0 with title := pystr "New" }) ∧
     MemoryTaskRepository.find_by_id
        (dictSet [task0] { task0 with title := pystr "New" })
        ({ task0 with title := pystr "New" } : Task).id
      = some { task0 with title := pystr "New" }) ∧
    MemoryTaskRepository.update [task0] task1 = (none, [task0]) ∧
    (∃ sts2, SQLiteTaskRepository.update [Task.to_dict task0]
        { task0 with title := pystr "New" }
      = (some { task0 with title := pystr "New" }, sts2) ∧
      ∀ r ∈ [Task.to_dict task0],
        (r.id ≠ ({ task0 with title := pystr "New" } : Task).id →
          r ∈ sts2) ∧
        (r.id = ({ task0 with title := pystr "New" } : Task).id →
          { r with title := ({ task0 with title := pystr "New" } : Task).title,
                   status :=
              ({ task0 with title := pystr "New" } : Task).status.value,
                   updated_at :=
              ({ task0 with title := pystr "New" } : Task).updated_at.isoformat }
            ∈ sts2)) ∧
    SQLiteTaskRepository.update [Task.to_dict task0] task1
      = (none, [Task.to_dict task0]) :=
  ⟨C2_update_semantics.1 [task0] { task0 with title := pystr "New" }
      (by decide),
   C2_update_semantics.2.1 [task0] task1 (by decide),
   C2_update_semantics.2.2.1 [Task.to_dict task0]
      { task0 with title := pystr "New" } (by decide),
   C2_update_semantics.2.2.2 [Task.to_dict task0] task1 (by decide)⟩

/-- C1 as stated fails on the in-memory backend: `update_task` with a
valid title and an invalid status raises ValidationError without any
persistence call, yet the stored task's title (and updated_at) have
already changed, because the backend's `find_by_id` returns the stored
object itself, not a copy. -/
theorem C1_counterexample :
    TaskService.update_task_mem [task0] (pystr "a") (some (pystr "New"))
        (some (pystr "bogus")) dt1 dt1
      = (.error (.valueError
          (pystr "Invalid status. Must be one of: pending, done")),
         [⟨pystr "a", pystr "New", .pending, dt0, dt1⟩]) ∧
    task0.title = pystr "Original" ∧
    (pystr "New" : PyStr) ≠ task0.title := by decide

/-- C1 amended: a ValidationError from `update_task` is raised before any
persistence call; the relational backend's stored rows are then unchanged
in every field, and the in-memory store is unchanged whenever the failing
validation is the first supplied mutation — but when a valid title
precedes an invalid status, the in-memory store already holds the new
title and updated_at through the alias returned by `find_by_id`. -/
theorem C1_validation_error_persistence :
    (∀ (sts : List TaskDict) (task_id : PyStr)
        (title status : Option PyStr) (nowT nowS : DateTime) (e : PyErr)
        (st2 : List TaskDict),
      TaskService.update_task_sql sts task_id title status nowT nowS
        = (.error e, st2) → st2 = sts) ∧
    (∀ (st : List Task) (task_id ti : PyStr) (status : Option PyStr)
        (nowT nowS : DateTime) (task : Task) (e : PyErr),
      MemoryTaskRepository.find_by_id st task_id = some task →
      Task.update_title task ti nowT = .error e →
      TaskService.update_task_mem st task_id (some ti) status nowT nowS
        = (.error e, st)) ∧
    (∀ (st : List Task) (task_id s : PyStr) (nowT nowS : DateTime)
        (task : Task) (e : PyErr), IdsNodup st →
      MemoryTaskRepository.find_by_id st task_id = some task →
      Task.update_status task s nowS = .error e →
      TaskService.update_task_mem st task_id none (some s) nowT nowS
        = (.error e, st)) ∧
    (∀ (st : List Task) (task_id ti s : PyStr) (nowT nowS : DateTime)
        (task t1 : Task) (e : PyErr),
      MemoryTaskRepository.find_by_id st task_id = some task →
      Task.update_title task ti nowT = .ok t1 →
      Task.update_status t1 s nowS = .error e →
      TaskService.update_task_mem st task_id (some ti) (some s) nowT nowS
        = (.error e, dictSet st t1)) := by
  refine ⟨?_, ?_, ?_, ?_⟩
  · intro sts task_id title status nowT nowS e st2 h
    unfold TaskService.update_task_sql at h
    cases hfb : SQLiteTaskRepository.find_by_id sts task_id with
    | error e2 =>
        simp only [hfb, Prod.mk.injEq] at h
        exact h.2.symm
    | ok o =>
        cases o with
        | none =>
            simp only [hfb, Prod.mk.injEq] at h
            exact h.2.symm
        | some task =>
            cases hts : TaskService.titleStep task title nowT with
            | error e2 =>
                simp only [hfb, hts, Prod.mk.injEq] at h
                exact h.2.symm
            | ok t1 =>
                cases hss : TaskService.statusStep t1 status nowS with
                | error e2 =>
                    simp only [hfb, hts, hss, Prod.mk.injEq] at h
                    exact h.2.symm
                | ok t2 =>
                    simp only [hfb, hts, hss, SQLiteTaskRepository.update,
                      Prod.mk.injEq] at h
                    split_ifs at h <;> simp at h
  · intro st task_id ti status nowT nowS task e hf ht
    simp only [TaskService.update_task_mem, hf, TaskService.titleStep, ht]
  · intro st task_id s nowT nowS task e hn hf hs
    have hds : dictSet st task = st := dictSet_self hn hf
    simp only [TaskService.update_task_mem, hf, TaskService.titleStep,
      TaskService.statusStep, hs, hds]
  · intro st task_id ti s nowT nowS task t1 e hf ht hs
    simp only [TaskService.update_task_mem, hf, TaskService.titleStep,
      TaskService.statusStep, ht, hs]

/-- Witness for the amended C1 at concrete failing updates. -/
theorem C1_validation_error_persistence_witness :
    ([Task.to_dict task0] : List TaskDict) = [Task.to_dict task0] ∧
    (TaskService.update_task_mem [task0] (pystr "a") (some (pystr "  "))
        (some (pystr "done")) dt1 dt1
      = (.error (.valueError (pystr "Title cannot be empty")), [task0])) ∧
    (TaskService.update_task_mem [task0] (pystr "a") none
        (some (pystr "bogus")) dt1 dt1
      = (.error (.valueError
          (pystr "Invalid status. Must be one of: pending, done")),
         [task0])) ∧
    (TaskService.update_task_mem [task0] (pystr "a") (some (pystr "New"))
        (some (pystr "bogus")) dt1 dt1
      = (.error (.valueError
          (pystr "Invalid status. Must be one of: pending, done")),
         dictSet [task0] ⟨pystr "a", pystr "New", .pending, dt0, dt1⟩)) :=
  ⟨C1_validation_error_persistence.1 [Task.to_dict task0] (pystr "a")
      (some (pystr "New")) (some (pystr "bogus")) dt1 dt1
      (.valueError
        (pystr "Invalid status. Must be one of: pending, done"))
      [Task.to_dict task0] (by decide),
   C1_validation_error_persistence.2.1 [task0] (pystr "a") (pystr "  ")
      (some (pystr "done")) dt1 dt1 task0
      (.valueError (pystr "Title cannot be empty")) (by decide)
      (by decide),
   C1_validation_error_persistence.2.2.1 [task0] (pystr "a")
      (pystr "bogus") dt1 dt1 task0
      (.valueError
        (pystr "Invalid status. Must be one of: pending, done"))
      (by decide) (by decide) (by decide),
   C1_validation_error_persistence.2.2.2 [task0] (pystr "a")
      (pystr "New") (pystr "bogus") dt1 dt1 task0
      ⟨pystr "a", pystr "New", .pending, dt0, dt1⟩
      (.valueError
        (pystr "Invalid status. Must be one of: pending, done"))
      (by decide) (by decide) (by decide)⟩

theorem taskDesc_trans (a b c : Task) :
    DateTime.le b.created_at a.created_at = true →
    DateTime.le c.created_at b.created_at = true →
    DateTime.le c.created_at a.created_at = true :=
  fun h1 h2 => natListLe_trans h2 h1

theorem taskDesc_total (a b : Task) :
    (DateTime.le b.created_at a.created_at
      || DateTime.le a.created_at b.created_at) = true := by
  rcases natListLe_total b.created_at.toList a.created_at.toList with
    h | h
  · simp [DateTime.le, h]
  · simp [DateTime.le, h]

theorem rowDesc_trans (a b c : TaskDict) :
    natListLe b.created_at a.created_at = true →
    natListLe c.created_at b.created_at = true →
    natListLe c.created_at a.created_at = true :=
  fun h1 h2 => natListLe_trans h2 h1

theorem rowDesc_total (a b : TaskDict) :
    (natListLe b.created_at a.created_at
      || natListLe a.created_at b.created_at) = true := by
  rcases natListLe_total b.created_at a.created_at with h | h
  · simp [h]
  · simp [h]

/-- C7: on both backends `find_all` returns every stored task exactly
once, ordered by created_at descending; in particular saving A and then a
strictly later B into an empty in-memory store lists [B, A]. -/
theorem C7_find_all_sorted :
    (∀ st : List Task,
      (MemoryTaskRepository.find_all st).Perm st ∧
      (MemoryTaskRepository.find_all st).Pairwise
        (fun a b => DateTime.le b.created_at a.created_at = true)) ∧
    (∀ A B : Task, A.id ≠ B.id →
      DateTime.le B.created_at A.created_at = false →
      MemoryTaskRepository.find_all
        (MemoryTaskRepository.save
          (MemoryTaskRepository.save [] A).2 B).2 = [B, A]) ∧
    (∀ sts : List TaskDict, (∀ r ∈ sts, WfRow r) →
      ∃ ts, SQLiteTaskRepository.find_all sts = .ok ts ∧
        (ts.map Task.to_dict).Perm sts ∧
        ts.Pairwise
          (fun a b => DateTime.le b.created_at a.created_at = true)) := by
  refine ⟨?_, ?_, ?_⟩
  · intro st
    exact ⟨List.mergeSort_perm st _,
      List.sorted_mergeSort taskDesc_trans taskDesc_total st⟩
  · intro A B hid hlt
    have h1 : dictSet [] A = [A] := by simp [dictSet]
    have h2 : dictSet [A] B = [A, B] := by simp [dictSet, hid]
    show MemoryTaskRepository.find_all (dictSet (dictSet [] A) B) = [B, A]
    rw [h1, h2]
    unfold MemoryTaskRepository.find_all
    simp [List.mergeSort, List.merge, hlt]
  · intro sts hw
    have hperm : (sts.mergeSort
        (fun a b => natListLe b.created_at a.created_at)).Perm sts :=
      List.mergeSort_perm sts _
    have hwrows : ∀ r ∈ sts.mergeSort
        (fun a b => natListLe b.created_at a.created_at), WfRow r :=
      fun r hr => hw r (hperm.mem_iff.mp hr)
    obtain ⟨ts, hts, hf2⟩ := rowsToTasks_all_wf hwrows
    refine ⟨ts, ?_, ?_, ?_⟩
    · simp only [SQLiteTaskRepository.find_all, hts]
    · rw [forall₂_map_to_dict hf2]
      exact hperm
    · have hpw : (sts.mergeSort
          (fun a b => natListLe b.created_at a.created_at)).Pairwise
          (fun a b => natListLe b.created_at a.created_at = true) :=
        List.sorted_mergeSort rowDesc_trans rowDesc_total sts
      refine pairwise_across_forall₂ hf2 hpw ?_
      intro r1 t1 r2 t2 hR1 hR2 hP
      obtain ⟨hd1, hc1, _⟩ := hR1
      obtain ⟨hd2, hc2, _⟩ := hR2
      have e1 : r1.created_at = t1.created_at.isoformat :=
        (congrArg TaskDict.created_at hd1).symm
      have e2 : r2.created_at = t2.created_at.isoformat :=
        (congrArg TaskDict.created_at hd2).symm
      rw [e1, e2, isoformat_le hc2 hc1] at hP
      exact hP

/-- Witness for C7 at concrete stores. -/
theorem C7_find_all_sorted_witness :
    ((MemoryTaskRepository.find_all [task0, task1]).Perm [task0, task1] ∧
      (MemoryTaskRepository.find_all [task0, task1]).Pairwise
        (fun a b => DateTime.le b.created_at a.created_at = true)) ∧
    (MemoryTaskRepository.find_all
      (MemoryTaskRepository.save
        (MemoryTaskRepository.save [] task0).2 task1).2 = [task1, task0]) ∧
    (∃ ts, SQLiteTaskRepository.find_all
        [Task.to_dict task0, Task.to_dict task1] = .ok ts ∧
      (ts.map Task.to_dict).Perm
        [Task.to_dict task0, Task.to_dict task1] ∧
      ts.Pairwise
        (fun a b => DateTime.le b.created_at a.created_at = true)) :=
  ⟨C7_find_all_sorted.1 [task0, task1],
   C7_find_all_sorted.2.1 task0 task1 (by decide) (by decide),
   C7_find_all_sorted.2.2 [Task.to_dict task0, Task.to_dict task1]
     (by
       intro r hr
       rcases List.mem_cons.mp hr with rfl | hr2
       · exact to_dict_wf task0 (by decide) (by decide)
       · rcases List.mem_cons.mp hr2 with rfl | hr3
         · exact to_dict_wf task1 (by decide) (by decide)
         · simp at hr3)⟩

end TaskMgmt
